import Mathlib

/-!
Shallow embedding of the pepper-iot/pulsar-client-go core, covering the
frame codec (core/frame), the connector (core/conn), the producer
(core/pub) and the managed consumer (core/manage), together with proofs
about the claims of the specification.

Protobuf messages are treated as opaque byte strings: `proto.Marshal` /
`proto.Unmarshal` are the identity on the stored bytes and `proto.Equal`
is byte-string equality (with a Go `nil` message distinct from a present
message).  Machine integers are `Nat` with explicit `% 2 ^ 32` /
`% 2 ^ 64` wherever the Go code performs 32- or 64-bit arithmetic.
-/

deriving instance DecidableEq for Except

/-! ## Frame codec (core/frame/frame.go) -/

/-- MaxFrameSize, defined by the Pulsar spec: 5 MiB. -/
def MaxFrameSize : Nat := 5 * 1024 * 1024

/-- The 2-byte magic number 0x0e01 identifying an optional checksum. -/
def magicNumber : List Nat := [0x0e, 0x01]

/-- Go `uint32(n)`: truncation to 32 bits. -/
def u32 (n : Nat) : Nat := n % 2 ^ 32

/-- Big-endian 4-byte encoding of a `uint32` (Go `binary.BigEndian.PutUint32`). -/
def be32 (n : Nat) : List Nat :=
  [n / 2 ^ 24 % 256, n / 2 ^ 16 % 256, n / 2 ^ 8 % 256, n % 256]

/-- Go `binary.BigEndian.Uint32` over the first four bytes of a stream. -/
def readBE32 (bs : List Nat) : Nat :=
  match bs with
  | b0 :: b1 :: b2 :: b3 :: _ => ((b0 * 256 + b1) * 256 + b2) * 256 + b3
  | _ => 0

/-- Modelled from the spec: the CRC32-C (Castagnoli) polynomial in the
reflected representation used by Go `crc32.MakeTable(crc32.Castagnoli)`.
The checksum implementation (core/frame checksum file) is not under src;
the spec fixes it as CRC32-C over `metadataSize || metadata || payload`. -/
def crcPoly : Nat := 0x82F63B78

/-- One shift-xor round of the reflected CRC32-C bit loop. -/
def crcRound (r : Nat) : Nat :=
  if r % 2 = 1 then (r / 2) ^^^ crcPoly else r / 2

/-- Eight CRC rounds: one input byte. -/
def crcRound8 (r : Nat) : Nat :=
  crcRound (crcRound (crcRound (crcRound (crcRound (crcRound (crcRound (crcRound r)))))))

/-- CRC32-C running state over a byte list. -/
def crc32cAux : Nat → List Nat → Nat
  | r, [] => r
  | r, b :: bs => crc32cAux (crcRound8 (r ^^^ b)) bs

/-- Modelled from the spec: CRC32-C of a byte string (initial and final
complement with 0xFFFFFFFF), as computed by Go `hash/crc32` with the
Castagnoli table. -/
def crc32c (bs : List Nat) : Nat :=
  crc32cAux 0xFFFFFFFF bs ^^^ 0xFFFFFFFF

/-- A pulsar frame: a required BaseCommand plus optional metadata and
payload.  The protobuf messages are abstracted to their marshalled bytes;
`metadata = none` is a Go `nil` pointer, `payload = []` covers both the Go
`nil` slice and the empty slice (indistinguishable under `bytes.Equal`). -/
structure Frame where
  baseCmd : List Nat
  metadata : Option (List Nat)
  payload : List Nat
deriving DecidableEq

/-- Go `proto.Equal` on an optional message: `nil` equals only `nil`;
two present messages are equal iff their bytes are. -/
def protoEqual : Option (List Nat) → Option (List Nat) → Bool
  | none, none => true
  | some a, some b => a == b
  | _, _ => false

/-- Frame.Equal from core/frame/frame.go. -/
def Frame.Equal (f other : Frame) : Bool :=
  f.baseCmd == other.baseCmd &&
  protoEqual f.metadata other.metadata &&
  f.payload == other.payload

/-- The true (unwrapped) size in bytes of the encoding Frame.Encode emits:
4 bytes of totalSize, 4 of cmdSize, the command, and for payload frames
6 bytes of magic+checksum, 4 of metadataSize, metadata and payload. -/
def encodedSize (f : Frame) : Nat :=
  if (f.metadata.getD []).length > 0 then
    8 + f.baseCmd.length + 6 + (f.metadata.getD []).length + 4 + f.payload.length
  else
    8 + f.baseCmd.length

/-- Encode errors: the only failure of the embedded encoder is the
frame-size guard (`proto.Marshal` is abstracted as total). -/
inductive EncodeErr
  | frameTooLarge (frameSize : Nat)
deriving DecidableEq

/-- Frame.Encode from core/frame/frame.go.  Sizes go through `uint32`
exactly where the Go code converts (`uint32(len(...))`) and adds 32-bit
values, so the arithmetic wraps at 2^32 as in Go. -/
def Frame.Encode (f : Frame) : Except EncodeErr (List Nat) :=
  let cmdSize := u32 f.baseCmd.length
  let encodedMetadata := f.metadata.getD []
  let metadataSize := u32 encodedMetadata.length
  let totalSize :=
    if metadataSize > 0 then
      u32 (cmdSize + 4 + 6 + metadataSize + 4 + u32 f.payload.length)
    else
      u32 (cmdSize + 4)
  if u32 (totalSize + 4) > MaxFrameSize then
    .error (.frameTooLarge (u32 (totalSize + 4)))
  else if metadataSize = 0 then
    .ok (be32 totalSize ++ be32 cmdSize ++ f.baseCmd)
  else
    let body := be32 metadataSize ++ encodedMetadata ++ f.payload
    .ok (be32 totalSize ++ be32 cmdSize ++ f.baseCmd ++
         magicNumber ++ be32 (crc32c body) ++ body)

/-- Decode errors of the frame decoder.  `truncated` stands for the
short-read errors of `io.ReadFull`; the size errors carry the declared
size that tripped the guard. -/
inductive DecodeErr
  | truncated
  | totalSizeTooLarge (n : Nat)
  | cmdSizeTooLarge (n : Nat)
  | metadataSizeTooLarge (n : Nat)
  | payloadSizeTooLarge (n : Nat)
  | checksumMismatch (computed expected : List Nat)
deriving DecidableEq

/-- The Go `io.LimitedReader` wrapped around the input: `rem` is `lr.N`,
`s` the remaining underlying bytes. -/
structure RdState where
  rem : Nat
  s : List Nat
deriving DecidableEq

/-- `io.ReadFull` of `k` bytes through the limited reader: succeeds iff
both the limit and the underlying stream have `k` bytes left. -/
def lrRead (k : Nat) (st : RdState) : Option (List Nat × RdState) :=
  if k ≤ st.rem ∧ k ≤ st.s.length then
    some (st.s.take k, ⟨st.rem - k, st.s.drop k⟩)
  else
    none

/-- The final checksum comparison of Frame.Decode.  `chk = none` means the
magic prefix was absent: the tee reader was never installed and
`frameChecksum.compute()` returns `nil`, which equals the absent expected
checksum.  `chk = some expected` compares the CRC32-C of the teed bytes
(metadataSize buffer, metadata, payload) against the stored checksum. -/
def checksumGate (chk : Option (List Nat)) (teed : List Nat) (f : Frame) :
    Except DecodeErr Frame :=
  match chk with
  | none => .ok f
  | some expected =>
      let computed := be32 (crc32c teed)
      if computed = expected then .ok f
      else .error (.checksumMismatch computed expected)

/-- The tail of Frame.Decode after the optional magic/checksum prefix has
been resolved: read metadataSize (from `msBuf`), the metadata, then any
remaining bytes as payload, and run the checksum gate. -/
def decodeRest (cmdBuf msBuf : List Nat) (st : RdState)
    (chk : Option (List Nat)) : Except DecodeErr Frame :=
  let metadataSize := readBE32 msBuf
  if metadataSize > MaxFrameSize then
    .error (.metadataSizeTooLarge metadataSize)
  else
    match lrRead metadataSize st with
    | none => .error .truncated
    | some (metaBuf, st2) =>
      if st2.rem > 0 then
        if st2.rem > MaxFrameSize then
          .error (.payloadSizeTooLarge st2.rem)
        else
          match lrRead st2.rem st2 with
          | none => .error .truncated
          | some (payload, _) =>
              checksumGate chk (msBuf ++ metaBuf ++ payload)
                ⟨cmdBuf, some metaBuf, payload⟩
      else
        checksumGate chk (msBuf ++ metaBuf) ⟨cmdBuf, some metaBuf, []⟩

/-- Frame.Decode from core/frame/frame.go, over a byte stream. -/
def Frame.Decode (s : List Nat) : Except DecodeErr Frame :=
  if s.length < 4 then .error .truncated
  else
    let totalSize := readBE32 s
    if totalSize + 4 > MaxFrameSize then
      .error (.totalSizeTooLarge totalSize)
    else
      match lrRead 4 ⟨totalSize, s.drop 4⟩ with
      | none => .error .truncated
      | some (szBuf, st1) =>
        let cmdSize := readBE32 szBuf
        if cmdSize > MaxFrameSize then
          .error (.cmdSizeTooLarge cmdSize)
        else
          match lrRead cmdSize st1 with
          | none => .error .truncated
          | some (cmdBuf, st2) =>
            if st2.rem = 0 then .ok ⟨cmdBuf, none, []⟩
            else
              match lrRead 4 st2 with
              | none => .error .truncated
              | some (buf32, st3) =>
                if buf32.head? = some 0x0e ∧ buf32.tail.head? = some 0x01 then
                  match lrRead 2 st3 with
                  | none => .error .truncated
                  | some (chkTail, st4) =>
                    match lrRead 4 st4 with
                    | none => .error .truncated
                    | some (msBuf, st5) =>
                        decodeRest cmdBuf msBuf st5
                          (some (buf32.drop 2 ++ chkTail))
                else
                  decodeRest cmdBuf buf32 st3 none

/-! ## Dispatcher (core/frame, not under src) and connector (core/conn/connector.go) -/

/-- Modelled from the spec: dispatcher failure modes (§4.2); the
dispatcher source file of core/frame is not under src. -/
inductive DispErr
  | alreadyRegistered
  | noHandler
deriving DecidableEq

/-- Modelled from the spec: the dispatcher's three disjoint key spaces
(§4.2) — a global single slot, a request-id map and a
(producer-id, sequence-id) map.  A registered slot is modelled by the
identity of the one-shot receiver it was given; `nextWaiter` allocates
fresh receiver identities.  The dispatcher source file is not under src;
its operations are pinned by the spec and by the calls in
connector.go / producer.go / producer_test.go. -/
structure Dispatcher where
  globalSlot : Option Nat
  reqIDSlots : List (Nat × Nat)
  prodSeqSlots : List ((Nat × Nat) × Nat)
  nextWaiter : Nat
deriving DecidableEq

/-- The dispatcher of `NewFrameDispatcher`: all slots free. -/
def Dispatcher.empty : Dispatcher := ⟨none, [], [], 0⟩

/-- Modelled from the spec: `register_global()` — fails with
AlreadyRegistered if the global slot is held, otherwise installs a fresh
receiver and returns it. -/
def Dispatcher.registerGlobal (d : Dispatcher) : Except DispErr (Nat × Dispatcher) :=
  if d.globalSlot.isSome then .error .alreadyRegistered
  else .ok (d.nextWaiter,
    { d with globalSlot := some d.nextWaiter, nextWaiter := d.nextWaiter + 1 })

/-- Modelled from the spec: `register_request_id(id)`. -/
def Dispatcher.registerReqID (d : Dispatcher) (id : Nat) :
    Except DispErr (Nat × Dispatcher) :=
  if (d.reqIDSlots.lookup id).isSome then .error .alreadyRegistered
  else .ok (d.nextWaiter,
    { d with reqIDSlots := (id, d.nextWaiter) :: d.reqIDSlots,
             nextWaiter := d.nextWaiter + 1 })

/-- Modelled from the spec: `register_prod_seq(prod, seq)`. -/
def Dispatcher.registerProdSeqIDs (d : Dispatcher) (prod seq : Nat) :
    Except DispErr (Nat × Dispatcher) :=
  if (d.prodSeqSlots.lookup (prod, seq)).isSome then .error .alreadyRegistered
  else .ok (d.nextWaiter,
    { d with prodSeqSlots := ((prod, seq), d.nextWaiter) :: d.prodSeqSlots,
             nextWaiter := d.nextWaiter + 1 })

/-- Modelled from the spec: `notify_global` delivers to the receiver in
the global slot and consumes the slot; unknown key fails NoHandler. -/
def Dispatcher.notifyGlobal (d : Dispatcher) : Except DispErr (Nat × Dispatcher) :=
  match d.globalSlot with
  | some w => .ok (w, { d with globalSlot := none })
  | none => .error .noHandler

/-- Modelled from the spec: `notify_request_id(id)` delivers to the
receiver registered under `id` and consumes the slot. -/
def Dispatcher.notifyReqID (d : Dispatcher) (id : Nat) :
    Except DispErr (Nat × Dispatcher) :=
  match d.reqIDSlots.lookup id with
  | some w => .ok (w, { d with reqIDSlots := d.reqIDSlots.filter (fun kv => kv.1 != id) })
  | none => .error .noHandler

/-- Modelled from the spec: UndefRequestID = max-u64, reserved as
"no request-id" (§4.9; the utils package is not under src). -/
def UndefRequestID : Nat := 2 ^ 64 - 1

/-- The dispatcher-registration phase of Connector.Connect
(core/conn/connector.go lines 58-73): RegisterGlobal for the
CONNECTED/response slot, then RegisterReqID(UndefRequestID) for the ERROR
response to CONNECT.  Returns the dispatcher after both registrations,
the receiver awaiting CONNECTED and the receiver awaiting ERROR. -/
def Connector.connect (d : Dispatcher) : Except DispErr (Dispatcher × Nat × Nat) :=
  match d.registerGlobal with
  | .error e => .error e
  | .ok (wConnected, d1) =>
    match d1.registerReqID UndefRequestID with
    | .error e => .error e
    | .ok (wError, d2) => .ok (d2, wConnected, wError)

/-! ## Producer (core/pub/producer.go) -/

/-- Modelled from the spec: the monotonic counter of the msg package
(§4.9) — atomic 64-bit increment returning the pre-increment value. -/
structure MonotonicID where
  id : Nat
deriving DecidableEq

/-- `MonotonicID.Next`: returns the current value and the state holding
the incremented value (wrapping at 2^64 as Go's uint64 does). -/
def MonotonicID.next (m : MonotonicID) : Nat × MonotonicID :=
  (m.id, ⟨(m.id + 1) % 2 ^ 64⟩)

/-- api.CompressionType. -/
inductive CompressionType
  | NONE
  | LZ4
  | ZLIB
  | ZSTD
  | SNAPPY
deriving DecidableEq

/-- The fields of api.CommandSend that Producer.Send populates. -/
structure CommandSend where
  producerId : Nat
  sequenceId : Nat
  numMessages : Int
deriving DecidableEq

/-- The fields of api.MessageMetadata that Producer.Send populates.
The producer name is abstracted to a name identifier. -/
structure MessageMetadata where
  sequenceId : Nat
  producerName : Nat
  publishTime : Nat
  compression : CompressionType
deriving DecidableEq

/-- The fields of api.CommandCloseProducer that Producer.Close populates. -/
structure CommandCloseProducer where
  requestId : Nat
  producerId : Nat
deriving DecidableEq

/-- The Producer of core/pub/producer.go.  `closedcClosed` models whether
the `Closedc` broadcast channel has been closed. -/
structure Producer where
  producerID : Nat
  producerName : Nat
  reqID : MonotonicID
  seqID : MonotonicID
  isClosed : Bool
  closedcClosed : Bool
deriving DecidableEq

/-- Outcome of Producer.Send up to the point the SEND frame is written.
`closed` is the ErrClosedProducer early return (no frame is written);
`registerFailed` is a dispatcher AlreadyRegistered failure (no frame is
written, but the sequence-id was already consumed); `sent` carries the
CommandSend and MessageMetadata of the written payload frame together
with the payload and the updated producer and dispatcher. -/
inductive SendResult
  | closed
  | registerFailed (p : Producer)
  | sent (cmd : CommandSend) (metadata : MessageMetadata) (payload : List Nat)
      (p : Producer) (d : Dispatcher)
deriving DecidableEq

/-- Producer.Send (core/pub/producer.go lines 77-114), up to writing the
payload frame.  `nowSec` is the uint64 value `uint64(time.Now().Unix())`
at the call; the code sets PublishTime to that value times 1000 in
uint64 arithmetic, wrapping at 2^64. -/
def Producer.send (p : Producer) (d : Dispatcher) (nowSec : Nat)
    (payload : List Nat) : SendResult :=
  if p.isClosed then .closed
  else
    let (sequenceID, seqID2) := p.seqID.next
    let cmd : CommandSend := ⟨p.producerID, sequenceID, 1⟩
    let metadata : MessageMetadata :=
      ⟨sequenceID, p.producerName, nowSec * 1000 % 2 ^ 64, .NONE⟩
    match d.registerProdSeqIDs p.producerID sequenceID with
    | .error _ => .registerFailed { p with seqID := seqID2 }
    | .ok (_, d2) => .sent cmd metadata payload { p with seqID := seqID2 } d2

/-- Outcome of Producer.Close.  `alreadyClosed` is the IsClosed early
return (nil error, no frame written, producer and dispatcher untouched);
`closedOk` is the path that sends CLOSE_PRODUCER and receives the
response: the producer is marked closed and Closedc is closed. -/
inductive CloseResult
  | alreadyClosed (p : Producer) (d : Dispatcher)
  | registerFailed (p : Producer) (d : Dispatcher)
  | closedOk (sent : CommandCloseProducer) (p : Producer) (d : Dispatcher)
deriving DecidableEq

/-- Producer.Close (core/pub/producer.go lines 161-199), with the
response-received continuation inlined (the `case <-resp` arm). -/
def Producer.close (p : Producer) (d : Dispatcher) : CloseResult :=
  if p.isClosed then .alreadyClosed p d
  else
    let (requestID, reqID2) := p.reqID.next
    let cmd : CommandCloseProducer := ⟨requestID, p.producerID⟩
    match d.registerReqID requestID with
    | .error _ => .registerFailed { p with reqID := reqID2 } d
    | .ok (_, d2) =>
        .closedOk cmd
          { p with reqID := reqID2, isClosed := true, closedcClosed := true } d2

/-- Producer.HandleCloseProducer (core/pub/producer.go lines 209-221). -/
def Producer.handleCloseProducer (p : Producer) : Producer :=
  if p.isClosed then p
  else { p with isClosed := true, closedcClosed := true }

/-! ## Managed consumer (core/manage, the middle section of
src/core/pub/producer_test.go) -/

/-- ConsumerConfig duration fields (Go time.Duration, int64 nanoseconds)
and queue size. -/
structure ConsumerConfig where
  newConsumerTimeout : Int
  initialReconnectDelay : Int
  maxReconnectDelay : Int
  queueSize : Int
deriving DecidableEq

/-- One nanosecond-denominated second (Go time.Second). -/
def goSecond : Int := 1000000000

/-- Go time.Minute. -/
def goMinute : Int := 60 * goSecond

/-- ConsumerConfig.SetDefaults. -/
def ConsumerConfig.setDefaults (m : ConsumerConfig) : ConsumerConfig :=
  let m := if m.newConsumerTimeout ≤ 0 then { m with newConsumerTimeout := 5 * goSecond } else m
  let m := if m.initialReconnectDelay ≤ 0 then { m with initialReconnectDelay := 1 * goSecond } else m
  let m := if m.maxReconnectDelay ≤ 0 then { m with maxReconnectDelay := 5 * goMinute } else m
  let m := if m.queueSize ≤ 0 then { m with queueSize := 128 } else m
  m

/-- Go int64 arithmetic: wrap an integer into the two's-complement range
[-2^63, 2^63). -/
def int64wrap (x : Int) : Int := (x + 2 ^ 63) % 2 ^ 64 - 2 ^ 63

/-- The retry-delay update of ManagedConsumer.reconnect: after sleeping,
the delay is doubled until it reaches MaxReconnectDelay.  The doubling
`retryDelay *= 2` is Go int64 arithmetic and wraps at 2^63, which can
bypass the MaxReconnectDelay clamp for delays above 2^62 ns. -/
def nextRetryDelay (maxd d : Int) : Int :=
  if d < maxd then
    (if int64wrap (d * 2) > maxd then maxd else int64wrap (d * 2))
  else d

/-- The delay slept before the (n+1)-th non-initial attempt of the
reconnect loop, starting from `initial`. -/
def retryDelayAt (initial maxd : Int) : Nat → Int
  | 0 => initial
  | n + 1 => nextRetryDelay maxd (retryDelayAt initial maxd n)

/-- ManagedConsumer.reconnect (core/manage), driven by the list of
outcomes of the successive `newConsumer` attempts (`true` = the create
sequence succeeded).  Returns the list of backoff sleeps performed, the
number of attempts (newConsumer invocations) made, and whether a consumer
was obtained before the outcome list ran out. -/
def reconnectLoop (maxd : Int) : Int → Bool → List Bool → List Int × Nat × Bool
  | _, _, [] => ([], 0, false)
  | retryDelay, true, o :: os =>
      if o then ([], 1, true)
      else
        let r := reconnectLoop maxd retryDelay false os
        (r.1, r.2.1 + 1, r.2.2)
  | retryDelay, false, o :: os =>
      let rd2 := nextRetryDelay maxd retryDelay
      if o then ([retryDelay], 1, true)
      else
        let r := reconnectLoop maxd rd2 false os
        (retryDelay :: r.1, r.2.1 + 1, r.2.2)

/-- The ManagedConsumer state relevant to Close: whether the inner
consumer is currently set, and whether `stopManageChan` has been closed. -/
structure ManagedConsumer where
  consumerPresent : Bool
  stopManageChanClosed : Bool
deriving DecidableEq

/-- Outcome of ManagedConsumer.Close: `panicked` models the Go runtime
panic raised by `close` of an already-closed channel; `ok` returns the
state after closing stopManageChan (the inner consumer Close is then
invoked); `waits` is the consumer-nil branch that blocks on the wait
channel or the context. -/
inductive MCCloseOutcome
  | panicked
  | ok (m : ManagedConsumer)
  | waits
deriving DecidableEq

/-- ManagedConsumer.Close (core/manage, lines 761-782 of the combined
file): with a consumer present it unconditionally runs
`close(m.stopManageChan)` before calling the inner consumer's Close. -/
def ManagedConsumer.close (m : ManagedConsumer) : MCCloseOutcome :=
  if m.consumerPresent then
    if m.stopManageChanClosed then .panicked
    else .ok { m with stopManageChanClosed := true }
  else .waits

/-! ## Helper lemmas: xor cancellation and the CRC32-C byte-sensitivity -/

theorem natXor_right_cancel {a b c : Nat} (h : a ^^^ c = b ^^^ c) : a = b := by
  have := congrArg (· ^^^ c) h
  simpa [Nat.xor_assoc, Nat.xor_self, Nat.xor_zero] using this

theorem natXor_left_cancel {a b c : Nat} (h : c ^^^ a = c ^^^ b) : a = b := by
  have := congrArg (c ^^^ ·) h
  simpa [← Nat.xor_assoc, Nat.xor_self, Nat.zero_xor] using this

theorem crcRound_lt {r : Nat} (h : r < 2 ^ 32) : crcRound r < 2 ^ 32 := by
  unfold crcRound
  split
  · exact Nat.xor_lt_two_pow (by omega) (by decide)
  · omega

theorem crcRound_inj {a b : Nat} (ha : a < 2 ^ 32) (hb : b < 2 ^ 32)
    (h : crcRound a = crcRound b) : a = b := by
  unfold crcRound at h
  by_cases h1 : a % 2 = 1 <;> by_cases h2 : b % 2 = 1
  · rw [if_pos h1, if_pos h2] at h
    have := natXor_right_cancel h
    omega
  · rw [if_pos h1, if_neg h2] at h
    have hbit := congrArg (Nat.testBit · 31) h
    simp only [Nat.testBit_xor] at hbit
    rw [Nat.testBit_lt_two_pow (x := a / 2) (by omega)] at hbit
    rw [Nat.testBit_lt_two_pow (x := b / 2) (by omega)] at hbit
    have : crcPoly.testBit 31 = true := by decide
    rw [this] at hbit
    simp at hbit
  · rw [if_neg h1, if_pos h2] at h
    have hbit := congrArg (Nat.testBit · 31) h
    simp only [Nat.testBit_xor] at hbit
    rw [Nat.testBit_lt_two_pow (x := a / 2) (by omega)] at hbit
    rw [Nat.testBit_lt_two_pow (x := b / 2) (by omega)] at hbit
    have : crcPoly.testBit 31 = true := by decide
    rw [this] at hbit
    simp at hbit
  · rw [if_neg h1, if_neg h2] at h
    omega

theorem crcRound8_lt {r : Nat} (h : r < 2 ^ 32) : crcRound8 r < 2 ^ 32 := by
  unfold crcRound8
  exact crcRound_lt (crcRound_lt (crcRound_lt (crcRound_lt
    (crcRound_lt (crcRound_lt (crcRound_lt (crcRound_lt h)))))))

theorem crcRound8_inj {a b : Nat} (ha : a < 2 ^ 32) (hb : b < 2 ^ 32)
    (h : crcRound8 a = crcRound8 b) : a = b := by
  unfold crcRound8 at h
  have a1 := crcRound_lt ha
  have a2 := crcRound_lt a1
  have a3 := crcRound_lt a2
  have a4 := crcRound_lt a3
  have a5 := crcRound_lt a4
  have a6 := crcRound_lt a5
  have a7 := crcRound_lt a6
  have b1 := crcRound_lt hb
  have b2 := crcRound_lt b1
  have b3 := crcRound_lt b2
  have b4 := crcRound_lt b3
  have b5 := crcRound_lt b4
  have b6 := crcRound_lt b5
  have b7 := crcRound_lt b6
  exact crcRound_inj ha hb (crcRound_inj a1 b1 (crcRound_inj a2 b2
    (crcRound_inj a3 b3 (crcRound_inj a4 b4 (crcRound_inj a5 b5
      (crcRound_inj a6 b6 (crcRound_inj a7 b7 h)))))))

theorem crc32cAux_nil (r : Nat) : crc32cAux r [] = r := rfl

theorem crc32cAux_cons (r b : Nat) (bs : List Nat) :
    crc32cAux r (b :: bs) = crc32cAux (crcRound8 (r ^^^ b)) bs := rfl

theorem crc32cAux_lt (bs : List Nat) : ∀ r : Nat, r < 2 ^ 32 →
    (∀ x ∈ bs, x < 2 ^ 32) → crc32cAux r bs < 2 ^ 32 := by
  induction bs with
  | nil => intro r hr _; exact hr
  | cons b bs ih =>
      intro r hr hmem
      show crc32cAux (crcRound8 (r ^^^ b)) bs < 2 ^ 32
      exact ih _ (crcRound8_lt (Nat.xor_lt_two_pow hr (hmem b (by simp))))
        (fun x hx => hmem x (by simp [hx]))

theorem crc32cAux_ne (bs : List Nat) : ∀ r1 r2 : Nat, r1 < 2 ^ 32 →
    r2 < 2 ^ 32 → (∀ x ∈ bs, x < 2 ^ 32) → r1 ≠ r2 →
    crc32cAux r1 bs ≠ crc32cAux r2 bs := by
  induction bs with
  | nil => intro r1 r2 _ _ _ hne; exact hne
  | cons b bs ih =>
      intro r1 r2 h1 h2 hmem hne
      show crc32cAux (crcRound8 (r1 ^^^ b)) bs ≠ crc32cAux (crcRound8 (r2 ^^^ b)) bs
      have hb : b < 2 ^ 32 := hmem b (by simp)
      refine ih _ _ (crcRound8_lt (Nat.xor_lt_two_pow h1 hb))
        (crcRound8_lt (Nat.xor_lt_two_pow h2 hb))
        (fun x hx => hmem x (by simp [hx])) ?_
      intro heq
      exact hne (natXor_right_cancel
        (crcRound8_inj (Nat.xor_lt_two_pow h1 hb) (Nat.xor_lt_two_pow h2 hb) heq))

theorem crc32cAux_append (u : List Nat) : ∀ (v : List Nat) (r : Nat),
    crc32cAux r (u ++ v) = crc32cAux (crc32cAux r u) v := by
  induction u with
  | nil => intro v r; rfl
  | cons b u ih =>
      intro v r
      show crc32cAux (crcRound8 (r ^^^ b)) (u ++ v) = _
      exact ih v _

theorem crc32c_lt (bs : List Nat) (h : ∀ x ∈ bs, x < 2 ^ 32) :
    crc32c bs < 2 ^ 32 := by
  unfold crc32c
  exact Nat.xor_lt_two_pow (crc32cAux_lt bs _ (by norm_num) h) (by norm_num)

/-- A single mutated byte always changes the CRC32-C value. -/
theorem crc32c_single_mutation (pre suf : List Nat) (b bAlt : Nat)
    (hb : b < 2 ^ 32) (hbAlt : bAlt < 2 ^ 32)
    (hpre : ∀ x ∈ pre, x < 2 ^ 32) (hsuf : ∀ x ∈ suf, x < 2 ^ 32)
    (hne : b ≠ bAlt) :
    crc32c (pre ++ b :: suf) ≠ crc32c (pre ++ bAlt :: suf) := by
  unfold crc32c
  intro h
  have h2 := natXor_right_cancel h
  rw [crc32cAux_append, crc32cAux_append, crc32cAux_cons, crc32cAux_cons] at h2
  have hR : crc32cAux 0xFFFFFFFF pre < 2 ^ 32 :=
    crc32cAux_lt pre _ (by norm_num) hpre
  refine crc32cAux_ne suf _ _
    (crcRound8_lt (Nat.xor_lt_two_pow hR hb))
    (crcRound8_lt (Nat.xor_lt_two_pow hR hbAlt)) hsuf ?_ h2
  intro heq
  exact hne (natXor_left_cancel
    (crcRound8_inj (Nat.xor_lt_two_pow hR hb) (Nat.xor_lt_two_pow hR hbAlt) heq))

/-! ## Helper lemmas: byte streams and the limited reader -/

theorem be32_length (n : Nat) : (be32 n).length = 4 := by simp [be32]

theorem be32_mem_lt (n : Nat) : ∀ x ∈ be32 n, x < 256 := by
  intro x hx
  simp only [be32, List.mem_cons, List.not_mem_nil, or_false] at hx
  rcases hx with h | h | h | h <;> subst h <;> omega

theorem readBE32_cons (b0 b1 b2 b3 : Nat) (rest : List Nat) :
    readBE32 (b0 :: b1 :: b2 :: b3 :: rest) = ((b0 * 256 + b1) * 256 + b2) * 256 + b3 := rfl

theorem readBE32_be32_append (n : Nat) (rest : List Nat) (h : n < 2 ^ 32) :
    readBE32 (be32 n ++ rest) = n := by
  simp only [be32, List.cons_append, List.nil_append, readBE32_cons]
  omega

theorem be32_drop4 (n : Nat) (rest : List Nat) : (be32 n ++ rest).drop 4 = rest := by
  simp [be32]

theorem be32_append_length (n : Nat) (rest : List Nat) :
    (be32 n ++ rest).length = 4 + rest.length := by
  simp [be32]
  omega

theorem be32_inj {a b : Nat} (ha : a < 2 ^ 32) (hb : b < 2 ^ 32)
    (h : be32 a = be32 b) : a = b := by
  simp only [be32, List.cons.injEq, and_true] at h
  omega

theorem lrRead_exact (a b : List Nat) (rem : Nat) (h : a.length ≤ rem) :
    lrRead a.length ⟨rem, a ++ b⟩ = some (a, ⟨rem - a.length, b⟩) := by
  unfold lrRead
  rw [if_pos]
  · rw [List.take_left, List.drop_left]
  · exact ⟨h, by simp⟩

theorem lrRead_be32 (n : Nat) (b : List Nat) (rem : Nat) (h : 4 ≤ rem) :
    lrRead 4 ⟨rem, be32 n ++ b⟩ = some (be32 n, ⟨rem - 4, b⟩) := by
  have h4 := be32_length n
  have := lrRead_exact (be32 n) b rem (by rw [h4]; exact h)
  rw [h4] at this
  exact this

theorem readBE32_be32 (n : Nat) (h : n < 2 ^ 32) : readBE32 (be32 n) = n := by
  simp only [be32, readBE32_cons]
  omega

theorem lrRead_whole (a : List Nat) (rem : Nat) (h : a.length ≤ rem) :
    lrRead a.length ⟨rem, a⟩ = some (a, ⟨rem - a.length, []⟩) := by
  have := lrRead_exact a [] rem h
  simpa using this

theorem maxFrameSize_eq : MaxFrameSize = 5242880 := rfl

/-- Decoding a well-formed simple-command stream yields the command with
no metadata and no payload. -/
theorem decode_simple (cmd : List Nat) (h : cmd.length + 8 ≤ MaxFrameSize) :
    Frame.Decode (be32 (cmd.length + 4) ++ (be32 cmd.length ++ cmd)) =
      .ok ⟨cmd, none, []⟩ := by
  have hM := maxFrameSize_eq
  have hlt : cmd.length + 4 < 2 ^ 32 := by omega
  have hlt2 : cmd.length < 2 ^ 32 := by omega
  simp only [Frame.Decode]
  rw [be32_append_length]
  rw [if_neg (by omega)]
  rw [readBE32_be32_append _ _ hlt]
  rw [if_neg (by omega)]
  rw [be32_drop4]
  rw [lrRead_be32 _ _ _ (by omega)]
  simp only [Nat.add_sub_cancel]
  rw [readBE32_be32 _ hlt2]
  rw [if_neg (by omega)]
  rw [lrRead_whole cmd cmd.length (Nat.le_refl _)]
  simp only [Nat.sub_self]
  rw [if_pos trivial]

theorem lrRead_len (k : Nat) (a b : List Nat) (rem : Nat) (hk : a.length = k)
    (h : k ≤ rem) : lrRead k ⟨rem, a ++ b⟩ = some (a, ⟨rem - k, b⟩) := by
  subst hk
  exact lrRead_exact a b rem h

/-- Decoding a payload-command stream with the magic prefix: the parse
succeeds structurally and ends at the checksum gate, with the four stored
checksum bytes as the expected value and the metadataSize buffer,
metadata and payload as the teed bytes. -/
theorem decode_payload (cmd m pay : List Nat) (e0 e1 e2 e3 : Nat)
    (htot : cmd.length + 18 + m.length + pay.length ≤ MaxFrameSize) :
    Frame.Decode (be32 (cmd.length + 14 + m.length + pay.length) ++
      (be32 cmd.length ++ (cmd ++ ([14, 1, e0, e1] ++ ([e2, e3] ++
        (be32 m.length ++ (m ++ pay))))))) =
    checksumGate (some [e0, e1, e2, e3]) (be32 m.length ++ m ++ pay)
      ⟨cmd, some m, pay⟩ := by
  have hM := maxFrameSize_eq
  have hT : cmd.length + 14 + m.length + pay.length < 2 ^ 32 := by omega
  simp only [Frame.Decode]
  rw [be32_append_length]
  rw [if_neg (by omega)]
  rw [readBE32_be32_append _ _ hT]
  rw [if_neg (by omega)]
  rw [be32_drop4]
  rw [lrRead_be32 _ _ _ (by omega)]
  simp only []
  rw [readBE32_be32 _ (by omega)]
  rw [if_neg (by omega)]
  rw [show cmd.length + 14 + m.length + pay.length - 4 =
        cmd.length + 10 + m.length + pay.length from by omega]
  rw [lrRead_len cmd.length cmd _ _ rfl (by omega)]
  simp only []
  rw [show cmd.length + 10 + m.length + pay.length - cmd.length =
        10 + m.length + pay.length from by omega]
  rw [if_neg (by omega)]
  rw [lrRead_len 4 [14, 1, e0, e1] _ _ rfl (by omega)]
  simp only []
  rw [show (10 : Nat) + m.length + pay.length - 4 =
        6 + m.length + pay.length from by omega]
  rw [if_pos (⟨rfl, rfl⟩ : ([14, 1, e0, e1] : List Nat).head? = some 14 ∧
        ([14, 1, e0, e1] : List Nat).tail.head? = some 1)]
  rw [lrRead_len 2 [e2, e3] _ _ rfl (by omega)]
  simp only []
  rw [show (6 : Nat) + m.length + pay.length - 2 =
        4 + m.length + pay.length from by omega]
  rw [lrRead_be32 _ _ _ (by omega)]
  simp only []
  rw [show (4 : Nat) + m.length + pay.length - 4 =
        m.length + pay.length from by omega]
  simp only [decodeRest]
  rw [readBE32_be32 _ (by omega)]
  rw [if_neg (by omega)]
  rw [lrRead_len m.length m pay _ rfl (by omega)]
  simp only []
  rw [show m.length + pay.length - m.length = pay.length from by omega]
  by_cases hp : pay.length = 0
  · rw [if_neg (by omega)]
    have : pay = [] := List.length_eq_zero.mp hp
    subst this
    simp
  · rw [if_pos (by omega)]
    rw [if_neg (by omega)]
    rw [lrRead_whole pay pay.length (Nat.le_refl _)]
    simp

/-- Encoding a frame whose metadata serialises to zero bytes (absent
metadata, or present metadata with empty encoding) emits a simple frame:
totalSize, cmdSize and the command only. -/
theorem encode_simple (f : Frame) (hmeta : (f.metadata.getD []).length = 0)
    (hsize : f.baseCmd.length + 8 ≤ MaxFrameSize) :
    Frame.Encode f =
      .ok (be32 (f.baseCmd.length + 4) ++ be32 f.baseCmd.length ++ f.baseCmd) := by
  have hM := maxFrameSize_eq
  have h1 : f.baseCmd.length < 2 ^ 32 := by omega
  have h0 : ¬ ((0 : Nat) > 0) := by omega
  simp only [Frame.Encode, u32, hmeta, Nat.zero_mod]
  simp only [Nat.mod_eq_of_lt h1]
  simp only [if_neg h0]
  simp only [Nat.mod_eq_of_lt (show f.baseCmd.length + 4 < 2 ^ 32 by omega)]
  simp only [Nat.mod_eq_of_lt (show f.baseCmd.length + 4 + 4 < 2 ^ 32 by omega)]
  rw [if_neg (by omega)]
  simp

/-- Encoding a frame with nonempty metadata emits the payload-command
layout: totalSize, cmdSize, command, magic, CRC32-C checksum of
`metadataSize || metadata || payload`, metadataSize, metadata, payload. -/
theorem encode_payload (f : Frame) (m : List Nat) (hm : f.metadata = some m)
    (hm0 : m ≠ []) (hsize : encodedSize f ≤ MaxFrameSize) :
    Frame.Encode f =
      .ok (be32 (f.baseCmd.length + 14 + m.length + f.payload.length) ++
        be32 f.baseCmd.length ++ f.baseCmd ++ magicNumber ++
        be32 (crc32c (be32 m.length ++ m ++ f.payload)) ++
        (be32 m.length ++ m ++ f.payload)) := by
  have hM := maxFrameSize_eq
  have hmp : 0 < m.length := List.length_pos.mpr hm0
  have hsz : 8 + f.baseCmd.length + 6 + m.length + 4 + f.payload.length ≤ MaxFrameSize := by
    have : encodedSize f = 8 + f.baseCmd.length + 6 + m.length + 4 + f.payload.length := by
      unfold encodedSize
      rw [hm]
      simp only [Option.getD_some]
      rw [if_pos hmp]
    omega
  have h1 : f.baseCmd.length < 2 ^ 32 := by omega
  have h2 : m.length < 2 ^ 32 := by omega
  have h3 : f.payload.length < 2 ^ 32 := by omega
  simp only [Frame.Encode, u32, hm, Option.getD_some]
  simp only [Nat.mod_eq_of_lt h1, Nat.mod_eq_of_lt h2, Nat.mod_eq_of_lt h3]
  simp only [if_pos hmp]
  simp only [Nat.mod_eq_of_lt (show
    f.baseCmd.length + 4 + 6 + m.length + 4 + f.payload.length < 2 ^ 32 by omega)]
  simp only [Nat.mod_eq_of_lt (show
    f.baseCmd.length + 4 + 6 + m.length + 4 + f.payload.length + 4 < 2 ^ 32 by omega)]
  rw [if_neg (by omega)]
  rw [if_neg (by omega)]
  rw [show f.baseCmd.length + 4 + 6 + m.length + 4 + f.payload.length =
    f.baseCmd.length + 14 + m.length + f.payload.length from by omega]

/-- Frame.Equal is reflexive. -/
theorem Frame.Equal_self (f : Frame) : f.Equal f = true := by
  cases f with
  | mk cmd md pay =>
    cases md <;> simp [Frame.Equal, protoEqual]

/-- decode_payload restated with the stored checksum given as a 4-byte
big-endian value, in the exact shape Frame.Encode emits. -/
theorem decode_payload_be32 (cmd m pay : List Nat) (X : Nat)
    (htot : cmd.length + 18 + m.length + pay.length ≤ MaxFrameSize) :
    Frame.Decode (be32 (cmd.length + 14 + m.length + pay.length) ++
      be32 cmd.length ++ cmd ++ magicNumber ++ be32 X ++
      (be32 m.length ++ m ++ pay)) =
    checksumGate (some (be32 X)) (be32 m.length ++ m ++ pay)
      ⟨cmd, some m, pay⟩ := by
  have h := decode_payload cmd m pay (X / 2 ^ 24 % 256) (X / 2 ^ 16 % 256)
    (X / 2 ^ 8 % 256) (X % 256) htot
  convert h using 2
  simp [magicNumber, be32, List.append_assoc]

/-- C1 (amended): for every frame satisfying the frame invariant —
metadata and payload both absent, or metadata present with a nonempty
serialisation — whose encoded length is at most 5 MiB, decoding the bytes
produced by Frame.Encode yields a frame Frame.Equal to the original. -/
theorem frame_roundtrip (f : Frame)
    (hwf : (f.metadata = none ∧ f.payload = []) ∨ ∃ m, f.metadata = some m ∧ m ≠ [])
    (hsize : encodedSize f ≤ MaxFrameSize) :
    ∃ out g, Frame.Encode f = .ok out ∧ Frame.Decode out = .ok g ∧
      f.Equal g = true := by
  rcases hwf with ⟨hmd, hpl⟩ | ⟨m, hm, hm0⟩
  · have hmeta : (f.metadata.getD []).length = 0 := by rw [hmd]; rfl
    have hs : f.baseCmd.length + 8 ≤ MaxFrameSize := by
      have he : encodedSize f = 8 + f.baseCmd.length := by
        unfold encodedSize
        rw [hmd]
        simp
      omega
    refine ⟨_, ⟨f.baseCmd, none, []⟩, encode_simple f hmeta hs, ?_, ?_⟩
    · rw [List.append_assoc]
      exact decode_simple f.baseCmd hs
    · cases f with
      | mk cmd md pay =>
          simp only at hmd hpl
          subst hmd hpl
          simp [Frame.Equal, protoEqual]
  · have hmp : 0 < m.length := List.length_pos.mpr hm0
    have hsz : 8 + f.baseCmd.length + 6 + m.length + 4 + f.payload.length ≤ MaxFrameSize := by
      have he : encodedSize f = 8 + f.baseCmd.length + 6 + m.length + 4 + f.payload.length := by
        unfold encodedSize
        rw [hm]
        simp only [Option.getD_some]
        rw [if_pos hmp]
      omega
    have htot : f.baseCmd.length + 18 + m.length + f.payload.length ≤ MaxFrameSize := by
      omega
    refine ⟨_, ⟨f.baseCmd, some m, f.payload⟩, encode_payload f m hm hm0 hsize, ?_, ?_⟩
    · rw [decode_payload_be32 f.baseCmd m f.payload _ htot]
      simp only [checksumGate]
      rw [if_pos trivial]
    · cases f with
      | mk cmd md pay =>
          simp only at hm
          subst hm
          simp [Frame.Equal, protoEqual]

/-- The CRC32-C values of a payload body and the same body with one byte
mutated differ, hence their 4-byte encodings differ. -/
theorem crc_body_ne (msHdr pre suf : List Nat) (b bAlt : Nat)
    (hb : b < 256) (hbAlt : bAlt < 256)
    (hmsHdr : ∀ x ∈ msHdr, x < 256)
    (hpre : ∀ x ∈ pre, x < 256) (hsuf : ∀ x ∈ suf, x < 256)
    (hne : b ≠ bAlt) :
    be32 (crc32c (msHdr ++ pre ++ b :: suf)) ≠
      be32 (crc32c (msHdr ++ pre ++ bAlt :: suf)) := by
  have hcat : ∀ x ∈ msHdr ++ pre, x < 2 ^ 32 := by
    intro x hx
    rcases List.mem_append.mp hx with h | h
    · exact lt_trans (hmsHdr x h) (by norm_num)
    · exact lt_trans (hpre x h) (by norm_num)
  have hsuf32 : ∀ x ∈ suf, x < 2 ^ 32 := fun x hx =>
    lt_trans (hsuf x hx) (by norm_num)
  have hcrc := crc32c_single_mutation (msHdr ++ pre) suf b bAlt
    (lt_trans hb (by norm_num)) (lt_trans hbAlt (by norm_num))
    hcat hsuf32 hne
  intro h
  apply hcrc
  have hlt1 : crc32c (msHdr ++ pre ++ b :: suf) < 2 ^ 32 := by
    apply crc32c_lt
    intro x hx
    rcases List.mem_append.mp hx with h2 | h2
    · exact hcat x h2
    · rcases List.mem_cons.mp h2 with h3 | h3
      · subst h3; exact lt_trans hb (by norm_num)
      · exact hsuf32 x h3
  have hlt2 : crc32c (msHdr ++ pre ++ bAlt :: suf) < 2 ^ 32 := by
    apply crc32c_lt
    intro x hx
    rcases List.mem_append.mp hx with h2 | h2
    · exact hcat x h2
    · rcases List.mem_cons.mp h2 with h3 | h3
      · subst h3; exact lt_trans hbAlt (by norm_num)
      · exact hsuf32 x h3
  exact be32_inj hlt1 hlt2 h

/-- C2: for a frame with (nonempty-serialising) metadata, Frame.Encode
writes the 0x0E01 magic number followed by the CRC32-C checksum of
`metadataSize || metadata || payload`; and if any byte of the metadata or
payload region of the encoded frame is mutated afterwards, Frame.Decode
rejects the frame with a checksum-mismatch error. -/
theorem frame_checksum_rejects_mutation (f : Frame) (m pre suf : List Nat)
    (b bAlt : Nat)
    (hm : f.metadata = some m) (hm0 : m ≠ [])
    (hsize : encodedSize f ≤ MaxFrameSize)
    (hsplit : m ++ f.payload = pre ++ b :: suf)
    (hbytes : ∀ x ∈ m ++ f.payload, x < 256)
    (hbAlt : bAlt < 256) (hne : b ≠ bAlt) :
    Frame.Encode f = .ok
      (be32 (f.baseCmd.length + 14 + m.length + f.payload.length) ++
       be32 f.baseCmd.length ++ f.baseCmd ++ magicNumber ++
       be32 (crc32c (be32 m.length ++ m ++ f.payload)) ++
       (be32 m.length ++ m ++ f.payload)) ∧
    Frame.Decode
      (be32 (f.baseCmd.length + 14 + m.length + f.payload.length) ++
       be32 f.baseCmd.length ++ f.baseCmd ++ magicNumber ++
       be32 (crc32c (be32 m.length ++ m ++ f.payload)) ++
       (be32 m.length ++ (pre ++ bAlt :: suf))) =
      .error (.checksumMismatch
        (be32 (crc32c (be32 m.length ++ (pre ++ bAlt :: suf))))
        (be32 (crc32c (be32 m.length ++ m ++ f.payload)))) := by
  have hC := maxFrameSize_eq
  have hmp : 0 < m.length := List.length_pos.mpr hm0
  have he : encodedSize f = 8 + f.baseCmd.length + 6 + m.length + 4 + f.payload.length := by
    unfold encodedSize
    rw [hm]
    simp only [Option.getD_some]
    rw [if_pos hmp]
  refine ⟨encode_payload f m hm hm0 hsize, ?_⟩
  rw [hsplit] at hbytes
  have hb : b < 256 := hbytes b (by simp)
  have hpreB : ∀ x ∈ pre, x < 256 := fun x hx => hbytes x (by simp [hx])
  have hsufB : ∀ x ∈ suf, x < 256 := fun x hx => hbytes x (by simp [hx])
  have hlenq : (pre ++ bAlt :: suf).length = m.length + f.payload.length := by
    have h1 := congrArg List.length hsplit
    simp only [List.length_append, List.length_cons] at h1 ⊢
    omega
  have htake : ((pre ++ bAlt :: suf).take m.length).length = m.length := by
    rw [List.length_take]
    omega
  have hdrop : ((pre ++ bAlt :: suf).drop m.length).length = f.payload.length := by
    rw [List.length_drop]
    omega
  have htot : f.baseCmd.length + 18 + ((pre ++ bAlt :: suf).take m.length).length +
      ((pre ++ bAlt :: suf).drop m.length).length ≤ MaxFrameSize := by
    rw [htake, hdrop]
    omega
  have hdec := decode_payload_be32 f.baseCmd ((pre ++ bAlt :: suf).take m.length)
    ((pre ++ bAlt :: suf).drop m.length)
    (crc32c (be32 m.length ++ m ++ f.payload)) htot
  rw [htake, hdrop] at hdec
  rw [show be32 m.length ++ (pre ++ bAlt :: suf).take m.length ++
        (pre ++ bAlt :: suf).drop m.length = be32 m.length ++ (pre ++ bAlt :: suf)
      from by rw [List.append_assoc, List.take_append_drop]] at hdec
  rw [hdec]
  have hneq : ¬ (be32 (crc32c (be32 m.length ++ (pre ++ bAlt :: suf))) =
      be32 (crc32c (be32 m.length ++ m ++ f.payload))) := by
    rw [show be32 m.length ++ (pre ++ bAlt :: suf) =
          be32 m.length ++ pre ++ bAlt :: suf from by rw [List.append_assoc]]
    rw [show be32 m.length ++ m ++ f.payload = be32 m.length ++ pre ++ b :: suf
        from by rw [List.append_assoc, hsplit, ← List.append_assoc]]
    exact crc_body_ne (be32 m.length) pre suf bAlt b hbAlt hb
      (be32_mem_lt m.length) hpreB hsufB (Ne.symm hne)
  simp only [checksumGate]
  rw [if_neg hneq]

/-- C3 (amended): the encoder returns the frame-too-large error for every
frame whose true encoded length exceeds 5 MiB, provided that length fits
in a uint32 (so the 32-bit size arithmetic does not wrap); the decoder
returns the corresponding size errors whenever the declared total size,
command size or metadata size exceeds 5 MiB (the payload-size guard is
unreachable because the total size is already bounded). -/
theorem frame_size_guard :
    (∀ f : Frame, MaxFrameSize < encodedSize f → encodedSize f < 2 ^ 32 →
      Frame.Encode f = .error (.frameTooLarge (encodedSize f))) ∧
    (∀ s : List Nat, 4 ≤ s.length → MaxFrameSize < readBE32 s + 4 →
      Frame.Decode s = .error (.totalSizeTooLarge (readBE32 s))) ∧
    (∀ (T cs : Nat) (rest : List Nat), T + 4 ≤ MaxFrameSize → 4 ≤ T →
      cs < 2 ^ 32 → MaxFrameSize < cs →
      Frame.Decode (be32 T ++ (be32 cs ++ rest)) =
        .error (.cmdSizeTooLarge cs)) ∧
    (∀ (cmd rest : List Nat) (ms : Nat), ms < 2 ^ 32 → MaxFrameSize < ms →
      cmd.length + 18 + rest.length ≤ MaxFrameSize →
      Frame.Decode (be32 (cmd.length + 14 + rest.length) ++ (be32 cmd.length ++
        (cmd ++ ([14, 1, 0, 0] ++ ([0, 0] ++ (be32 ms ++ rest)))))) =
        .error (.metadataSizeTooLarge ms)) := by
  have hM := maxFrameSize_eq
  refine ⟨?_, ?_, ?_, ?_⟩
  · intro f h1 h2
    by_cases hmp : (f.metadata.getD []).length > 0
    · have hEnc : encodedSize f = 8 + f.baseCmd.length + 6 +
          (f.metadata.getD []).length + 4 + f.payload.length := by
        unfold encodedSize
        rw [if_pos hmp]
      rw [hEnc] at h1 h2
      simp only [Frame.Encode, u32]
      simp only [Nat.mod_eq_of_lt (show f.baseCmd.length < 2 ^ 32 by omega)]
      simp only [Nat.mod_eq_of_lt (show (f.metadata.getD []).length < 2 ^ 32 by omega)]
      simp only [Nat.mod_eq_of_lt (show f.payload.length < 2 ^ 32 by omega)]
      simp only [if_pos hmp]
      simp only [Nat.mod_eq_of_lt (show f.baseCmd.length + 4 + 6 +
        (f.metadata.getD []).length + 4 + f.payload.length < 2 ^ 32 by omega)]
      simp only [Nat.mod_eq_of_lt (show f.baseCmd.length + 4 + 6 +
        (f.metadata.getD []).length + 4 + f.payload.length + 4 < 2 ^ 32 by omega)]
      rw [if_pos (by omega)]
      rw [hEnc]
      rw [show f.baseCmd.length + 4 + 6 + (f.metadata.getD []).length + 4 +
        f.payload.length + 4 = 8 + f.baseCmd.length + 6 +
        (f.metadata.getD []).length + 4 + f.payload.length from by omega]
    · have hm0 : (f.metadata.getD []).length = 0 := by omega
      have hEnc : encodedSize f = 8 + f.baseCmd.length := by
        unfold encodedSize
        rw [if_neg hmp]
      rw [hEnc] at h1 h2
      have h00 : ¬ ((0 : Nat) > 0) := by omega
      simp only [Frame.Encode, u32, hm0, Nat.zero_mod]
      simp only [Nat.mod_eq_of_lt (show f.baseCmd.length < 2 ^ 32 by omega)]
      simp only [if_neg h00]
      simp only [Nat.mod_eq_of_lt (show f.baseCmd.length + 4 < 2 ^ 32 by omega)]
      simp only [Nat.mod_eq_of_lt (show f.baseCmd.length + 4 + 4 < 2 ^ 32 by omega)]
      rw [if_pos (by omega)]
      rw [hEnc]
      rw [show f.baseCmd.length + 4 + 4 = 8 + f.baseCmd.length from by omega]
  · intro s h4 hgt
    simp only [Frame.Decode]
    rw [if_neg (by omega)]
    rw [if_pos (by omega)]
  · intro T cs rest hT h4T hcs32 hcsgt
    simp only [Frame.Decode]
    rw [be32_append_length]
    rw [if_neg (by omega)]
    rw [readBE32_be32_append _ _ (by omega)]
    rw [if_neg (by omega)]
    rw [be32_drop4]
    rw [lrRead_be32 _ _ _ (by omega)]
    simp only []
    rw [readBE32_be32 _ hcs32]
    rw [if_pos (by omega)]
  · intro cmd rest ms hms32 hmsgt hsz
    simp only [Frame.Decode]
    rw [be32_append_length]
    rw [if_neg (by omega)]
    rw [readBE32_be32_append _ _ (by omega)]
    rw [if_neg (by omega)]
    rw [be32_drop4]
    rw [lrRead_be32 _ _ _ (by omega)]
    simp only []
    rw [readBE32_be32 _ (by omega)]
    rw [if_neg (by omega)]
    rw [show cmd.length + 14 + rest.length - 4 =
      cmd.length + 10 + rest.length from by omega]
    rw [lrRead_len cmd.length cmd _ _ rfl (by omega)]
    simp only []
    rw [show cmd.length + 10 + rest.length - cmd.length =
      10 + rest.length from by omega]
    rw [if_neg (by omega)]
    rw [lrRead_len 4 [14, 1, 0, 0] _ _ rfl (by omega)]
    simp only []
    rw [show (10 : Nat) + rest.length - 4 = 6 + rest.length from by omega]
    rw [if_pos (⟨rfl, rfl⟩ : ([14, 1, 0, 0] : List Nat).head? = some 14 ∧
        ([14, 1, 0, 0] : List Nat).tail.head? = some 1)]
    rw [lrRead_len 2 [0, 0] _ _ rfl (by omega)]
    simp only []
    rw [show (6 : Nat) + rest.length - 2 = 4 + rest.length from by omega]
    rw [lrRead_be32 _ _ _ (by omega)]
    simp only []
    simp only [decodeRest]
    rw [readBE32_be32 _ hms32]
    rw [if_pos (by omega)]

/-- encodedSize of a payload frame, in closed form. -/
theorem encodedSize_payload (f : Frame) (m : List Nat) (hm : f.metadata = some m)
    (hm0 : m ≠ []) :
    encodedSize f = 8 + f.baseCmd.length + 6 + m.length + 4 + f.payload.length := by
  unfold encodedSize
  rw [hm]
  simp only [Option.getD_some]
  rw [if_pos (List.length_pos.mpr hm0)]

/-- The encoder on a frame with empty command, one metadata byte, and a
payload whose length is a multiple of 2^32: `uint32(len(payload))` wraps
to 0, so the totalSize guard sees a 19-byte frame and the encoder
accepts. -/
theorem encode_payload_length_wraps (f : Frame) (m : List Nat)
    (hm : f.metadata = some m) (hmlen : m.length = 1)
    (hcmd : f.baseCmd.length = 0) (hpay : u32 f.payload.length = 0) :
    Frame.Encode f = .ok (be32 15 ++ be32 0 ++ f.baseCmd ++ magicNumber ++
      be32 (crc32c (be32 1 ++ m ++ f.payload)) ++ (be32 1 ++ m ++ f.payload)) := by
  simp only [Frame.Encode]
  rw [hm]
  simp only [Option.getD_some]
  rw [show u32 f.baseCmd.length = 0 from by rw [hcmd]; rfl]
  rw [show u32 m.length = 1 from by rw [hmlen]; rfl]
  rw [hpay]
  rw [if_pos (by decide : (1 : Nat) > 0)]
  rw [show u32 (0 + 4 + 6 + 1 + 4 + 0) = 15 from by decide]
  rw [if_neg (by decide : ¬ u32 (15 + 4) > MaxFrameSize)]
  rw [if_neg (by decide : ¬ (1 : Nat) = 0)]

/-- C3 counterexample: a frame with a 2^32-byte payload has true encoded
length far above 5 MiB, yet Frame.Encode accepts it, because `uint32(len)`
wraps the payload length to 0 and the totalSize guard sees a small frame. -/
theorem frame_size_guard_counterexample :
    MaxFrameSize < encodedSize ⟨[], some [1], List.replicate (2 ^ 32) 0⟩ ∧
    ∃ out, Frame.Encode ⟨[], some [1], List.replicate (2 ^ 32) 0⟩ = .ok out := by
  constructor
  · rw [encodedSize_payload ⟨[], some [1], List.replicate (2 ^ 32) 0⟩ [1] rfl
      (by decide)]
    rw [show (Frame.mk [] (some [1]) (List.replicate (2 ^ 32) 0)).payload =
      List.replicate (2 ^ 32) 0 from rfl]
    rw [List.length_replicate]
    rw [maxFrameSize_eq]
    norm_num
  · exact ⟨_, encode_payload_length_wraps ⟨[], some [1], List.replicate (2 ^ 32) 0⟩
      [1] rfl rfl rfl
      (by rw [show (Frame.mk [] (some [1]) (List.replicate (2 ^ 32) 0)).payload =
            List.replicate (2 ^ 32) 0 from rfl, List.length_replicate]
          exact Nat.mod_self _)⟩

/-- C3 witness: concrete oversize inputs trip each guard of the amended
frame-size property. -/
theorem encodedSize_simple (f : Frame) (h : (f.metadata.getD []).length = 0) :
    encodedSize f = 8 + f.baseCmd.length := by
  unfold encodedSize
  rw [h]
  rfl

theorem frame_size_guard_witness :
    Frame.Encode ⟨List.replicate 5242880 0, none, []⟩ =
      .error (.frameTooLarge (encodedSize ⟨List.replicate 5242880 0, none, []⟩)) ∧
    Frame.Decode [0, 96, 0, 0] =
      .error (.totalSizeTooLarge (readBE32 [0, 96, 0, 0])) ∧
    Frame.Decode (be32 100 ++ (be32 6291456 ++ List.replicate 96 0)) =
      .error (.cmdSizeTooLarge 6291456) ∧
    Frame.Decode (be32 (List.length ([] : List Nat) + 14 + List.length ([] : List Nat)) ++
      (be32 (List.length ([] : List Nat)) ++ (([] : List Nat) ++ ([14, 1, 0, 0] ++
        ([0, 0] ++ (be32 6291456 ++ ([] : List Nat))))))) =
      .error (.metadataSizeTooLarge 6291456) :=
  ⟨frame_size_guard.1 ⟨List.replicate 5242880 0, none, []⟩
      (by rw [encodedSize_simple ⟨List.replicate 5242880 0, none, []⟩ rfl]
          rw [show (Frame.mk (List.replicate 5242880 0) none []).baseCmd =
            List.replicate 5242880 0 from rfl]
          rw [List.length_replicate, maxFrameSize_eq]
          norm_num)
      (by rw [encodedSize_simple ⟨List.replicate 5242880 0, none, []⟩ rfl]
          rw [show (Frame.mk (List.replicate 5242880 0) none []).baseCmd =
            List.replicate 5242880 0 from rfl]
          rw [List.length_replicate]
          norm_num),
   frame_size_guard.2.1 [0, 96, 0, 0] (by norm_num) (by decide),
   frame_size_guard.2.2.1 100 6291456 (List.replicate 96 0)
      (by decide) (by norm_num) (by norm_num) (by decide),
   frame_size_guard.2.2.2 [] [] 6291456 (by norm_num) (by decide) (by decide)⟩

/-- C1 counterexample: the claim fails as stated — a frame carrying a
payload but no metadata has encoded length well under 5 MiB, yet its
payload is silently dropped by Frame.Encode, so the decoded frame is not
Frame.Equal to the original. -/
theorem frame_roundtrip_counterexample :
    encodedSize ⟨[1], none, [7]⟩ ≤ MaxFrameSize ∧
    Frame.Encode ⟨[1], none, [7]⟩ = .ok [0, 0, 0, 5, 0, 0, 0, 1, 1] ∧
    Frame.Decode [0, 0, 0, 5, 0, 0, 0, 1, 1] = .ok ⟨[1], none, []⟩ ∧
    Frame.Equal ⟨[1], none, [7]⟩ ⟨[1], none, []⟩ = false := by
  refine ⟨by decide, by decide, by decide, by decide⟩

/-- C1 witness: a concrete well-formed payload frame round-trips. -/
theorem frame_roundtrip_witness :
    ∃ out g, Frame.Encode ⟨[2], some [9], [7]⟩ = .ok out ∧
      Frame.Decode out = .ok g ∧ Frame.Equal ⟨[2], some [9], [7]⟩ g = true :=
  frame_roundtrip ⟨[2], some [9], [7]⟩ (Or.inr ⟨[9], rfl, by decide⟩) (by decide)

/-- C9: a frame whose Metadata field is present but serialises to zero
protobuf bytes is encoded as a simple frame only — no magic number,
checksum, metadataSize, metadata or payload bytes are written — so a
non-empty Payload is silently dropped and absent after decode, and the
round trip is not Frame.Equal to the original. -/
theorem encode_empty_metadata_drops_payload (f : Frame)
    (hmeta : f.metadata = some [])
    (hsize : f.baseCmd.length + 8 ≤ MaxFrameSize) :
    Frame.Encode f =
      .ok (be32 (f.baseCmd.length + 4) ++ be32 f.baseCmd.length ++ f.baseCmd) ∧
    Frame.Decode (be32 (f.baseCmd.length + 4) ++ be32 f.baseCmd.length ++ f.baseCmd) =
      .ok ⟨f.baseCmd, none, []⟩ ∧
    Frame.Equal f ⟨f.baseCmd, none, []⟩ = false := by
  have hm0 : (f.metadata.getD []).length = 0 := by rw [hmeta]; rfl
  refine ⟨encode_simple f hm0 hsize, ?_, ?_⟩
  · rw [List.append_assoc]
    exact decode_simple f.baseCmd hsize
  · cases f with
    | mk cmd md pay =>
        simp only at hmeta
        subst hmeta
        simp [Frame.Equal, protoEqual]

/-- C9 witness: a concrete frame with empty-serialising metadata and a
non-empty payload encodes as a simple frame and loses its payload. -/
theorem encode_empty_metadata_drops_payload_witness :
    Frame.Encode ⟨[1], some [], [7]⟩ =
      .ok (be32 ((1 : Nat) + 4) ++ be32 (1 : Nat) ++ [1]) ∧
    Frame.Decode (be32 ((1 : Nat) + 4) ++ be32 (1 : Nat) ++ [1]) =
      .ok ⟨[1], none, []⟩ ∧
    Frame.Equal ⟨[1], some [], [7]⟩ ⟨[1], none, []⟩ = false :=
  encode_empty_metadata_drops_payload ⟨[1], some [], [7]⟩ rfl (by decide)

/-- C2 witness: a concrete payload frame is encoded with magic and
CRC32-C, and flipping its single payload byte from 3 to 4 makes Decode
fail with a checksum mismatch. -/
theorem frame_checksum_rejects_mutation_witness :
    Frame.Encode ⟨[1], some [2], [3]⟩ = .ok
      (be32 ((1 : Nat) + 14 + 1 + 1) ++ be32 (1 : Nat) ++ [1] ++ magicNumber ++
       be32 (crc32c (be32 (1 : Nat) ++ [2] ++ [3])) ++
       (be32 (1 : Nat) ++ [2] ++ [3])) ∧
    Frame.Decode
      (be32 ((1 : Nat) + 14 + 1 + 1) ++ be32 (1 : Nat) ++ [1] ++ magicNumber ++
       be32 (crc32c (be32 (1 : Nat) ++ [2] ++ [3])) ++
       (be32 (1 : Nat) ++ ([2] ++ 4 :: []))) =
      .error (.checksumMismatch
        (be32 (crc32c (be32 (1 : Nat) ++ ([2] ++ 4 :: []))))
        (be32 (crc32c (be32 (1 : Nat) ++ [2] ++ [3])))) :=
  frame_checksum_rejects_mutation ⟨[1], some [2], [3]⟩ [2] [2] [] 3 4
    rfl (by decide) (by decide) (by decide) (by decide) (by decide) (by decide)

/-- C4 (amended): Connector.Connect awaits the CONNECTED response via the
dispatcher's global slot, and awaits the ERROR response to CONNECT via a
request-id registration keyed by the UndefRequestID sentinel; an ERROR
carrying the UNDEF request-id is delivered through that request-id slot
(to the error receiver), not through the global slot (which holds the
CONNECTED receiver). -/
theorem connector_connect_slots (d : Dispatcher)
    (hg : d.globalSlot = none)
    (hr : d.reqIDSlots.lookup UndefRequestID = none) :
    ∃ d2 : Dispatcher,
      Connector.connect d = .ok (d2, d.nextWaiter, d.nextWaiter + 1) ∧
      d2.globalSlot = some d.nextWaiter ∧
      d2.reqIDSlots.lookup UndefRequestID = some (d.nextWaiter + 1) ∧
      d.nextWaiter ≠ d.nextWaiter + 1 ∧
      (∀ w d3, d2.notifyReqID UndefRequestID = .ok (w, d3) → w = d.nextWaiter + 1) ∧
      (∀ w d3, d2.notifyGlobal = .ok (w, d3) → w = d.nextWaiter) := by
  refine ⟨⟨some d.nextWaiter, (UndefRequestID, d.nextWaiter + 1) :: d.reqIDSlots,
    d.prodSeqSlots, d.nextWaiter + 2⟩, ?_, rfl, ?_, by omega, ?_, ?_⟩
  · simp [Connector.connect, Dispatcher.registerGlobal,
      Dispatcher.registerReqID, hg, hr]
  · simp [List.lookup]
  · intro w d3 h
    simp only [Dispatcher.notifyReqID, List.lookup, beq_self_eq_true] at h
    simp at h
    exact h.1.symm
  · intro w d3 h
    simp only [Dispatcher.notifyGlobal] at h
    simp at h
    exact h.1.symm

/-- C4 witness: the registrations of Connect on an empty dispatcher. -/
theorem connector_connect_slots_witness :
    ∃ d2 : Dispatcher,
      Connector.connect Dispatcher.empty =
        .ok (d2, Dispatcher.empty.nextWaiter, Dispatcher.empty.nextWaiter + 1) ∧
      d2.globalSlot = some Dispatcher.empty.nextWaiter ∧
      d2.reqIDSlots.lookup UndefRequestID = some (Dispatcher.empty.nextWaiter + 1) ∧
      Dispatcher.empty.nextWaiter ≠ Dispatcher.empty.nextWaiter + 1 ∧
      (∀ w d3, d2.notifyReqID UndefRequestID = .ok (w, d3) →
        w = Dispatcher.empty.nextWaiter + 1) ∧
      (∀ w d3, d2.notifyGlobal = .ok (w, d3) → w = Dispatcher.empty.nextWaiter) :=
  connector_connect_slots Dispatcher.empty rfl rfl

/-- C4 counterexample: on an empty dispatcher, Connect registers the
CONNECTED receiver (0) in the global slot and the ERROR receiver (1)
under request-id UndefRequestID; the global slot does not hold the ERROR
receiver, so the ERROR response to CONNECT is not awaited via the global
slot. -/
theorem connector_connect_global_counterexample :
    Connector.connect Dispatcher.empty =
      .ok (⟨some 0, [(UndefRequestID, 1)], [], 2⟩, 0, 1) ∧
    (⟨some 0, [(UndefRequestID, 1)], [], 2⟩ : Dispatcher).globalSlot ≠ some 1 ∧
    (⟨some 0, [(UndefRequestID, 1)], [], 2⟩ :
      Dispatcher).reqIDSlots.lookup UndefRequestID = some 1 := by
  refine ⟨by decide, by decide, by decide⟩

/-- C5 (amended): a Send on an open producer emits a SEND command with
num-messages = 1 and MessageMetadata carrying the obtained sequence-id,
the producer name, compression NONE, and a publish time equal to the
wall-clock Unix seconds multiplied by 1000 in uint64 arithmetic
(wrapping at 2^64; second, not millisecond, resolution). -/
theorem producer_send_metadata (p : Producer) (d : Dispatcher) (nowSec : Nat)
    (payload : List Nat)
    (hopen : p.isClosed = false)
    (hfree : d.prodSeqSlots.lookup (p.producerID, p.seqID.id) = none) :
    ∃ d2, p.send d nowSec payload =
      .sent ⟨p.producerID, p.seqID.id, 1⟩
        ⟨p.seqID.id, p.producerName, nowSec * 1000 % 2 ^ 64, .NONE⟩
        payload { p with seqID := ⟨(p.seqID.id + 1) % 2 ^ 64⟩ } d2 := by
  simp only [Producer.send, hopen, MonotonicID.next,
    Dispatcher.registerProdSeqIDs, hfree]
  simp

/-- C5 counterexample: with the wall clock at 1500 ms past the epoch
(`time.Now().Unix()` = 1500 / 1000 = 1), the MessageMetadata sent by
Producer.Send carries publish-time 1000, not the wall-clock time in
milliseconds (1500): the code computes seconds × 1000. -/
theorem producer_send_publishtime_counterexample :
    Producer.send ⟨123, 7, ⟨43⟩, ⟨0⟩, false, false⟩ Dispatcher.empty
        (1500 / 1000) [] =
      .sent ⟨123, 0, 1⟩ ⟨0, 7, 1000, .NONE⟩ []
        ⟨123, 7, ⟨43⟩, ⟨1⟩, false, false⟩ ⟨none, [], [((123, 0), 0)], 1⟩ ∧
    (1000 : Nat) ≠ 1500 := by
  refine ⟨by decide, by decide⟩

/-- C5 witness: a concrete Send emits num-messages 1, compression NONE,
the producer name, the obtained sequence-id and seconds×1000 publish
time. -/
theorem producer_send_metadata_witness :
    ∃ d2, Producer.send ⟨123, 7, ⟨43⟩, ⟨5⟩, false, false⟩ Dispatcher.empty 2 [9] =
      .sent ⟨123, (MonotonicID.mk 5).id, 1⟩
        ⟨(MonotonicID.mk 5).id, 7, 2 * 1000 % 2 ^ 64, .NONE⟩
        [9] ⟨123, 7, ⟨43⟩, ⟨((MonotonicID.mk 5).id + 1) % 2 ^ 64⟩, false, false⟩ d2 :=
  producer_send_metadata ⟨123, 7, ⟨43⟩, ⟨5⟩, false, false⟩ Dispatcher.empty 2 [9]
    rfl rfl

/-- If Producer.Close completes through the response path, the resulting
producer is marked closed with the Closedc broadcast channel closed. -/
theorem producer_close_closedOk (q : Producer) (e : Dispatcher)
    (cmd : CommandCloseProducer) (q2 : Producer) (e2 : Dispatcher)
    (h : q.close e = .closedOk cmd q2 e2) :
    q2.isClosed = true ∧ q2.closedcClosed = true := by
  unfold Producer.close at h
  by_cases hq : q.isClosed
  · rw [if_pos hq] at h
    cases h
  · rw [if_neg hq] at h
    simp only [MonotonicID.next] at h
    rcases he : Dispatcher.registerReqID e q.reqID.id with hv | hv
    · rw [he] at h
      simp at h
    · rw [he] at h
      simp only [CloseResult.closedOk.injEq] at h
      rcases h with ⟨_, h2, _⟩
      subst h2
      exact ⟨rfl, rfl⟩

/-- C6: once a producer's IsClosed flag is set — whether by a completed
Close (the closedOk path) or by HandleCloseProducer — every subsequent
Send returns the closed-producer error without writing any frame (the
`.closed` outcome is the ErrClosedProducer early return, before the
dispatcher registration and before SendPayloadCmd). -/
theorem producer_closed_send_fails (p q : Producer) (d e : Dispatcher)
    (nowSec : Nat) (payload : List Nat) (hp : p.isClosed = true) :
    p.send d nowSec payload = .closed ∧
    (q.handleCloseProducer).isClosed = true ∧
    (∀ cmd q2 e2, q.close e = .closedOk cmd q2 e2 →
      q2.isClosed = true ∧ q2.send e2 nowSec payload = .closed) := by
  refine ⟨by simp [Producer.send, hp], ?_, ?_⟩
  · unfold Producer.handleCloseProducer
    by_cases h : q.isClosed
    · rw [if_pos h]
      exact h
    · rw [if_neg h]
  · intro cmd q2 e2 h
    have h2 := (producer_close_closedOk q e cmd q2 e2 h).1
    exact ⟨h2, by simp [Producer.send, h2]⟩

/-- C6 witness: a closed producer refuses Send; HandleCloseProducer and a
completed Close mark the producer closed. -/
theorem producer_closed_send_fails_witness :
    Producer.send ⟨123, 7, ⟨43⟩, ⟨0⟩, true, true⟩ Dispatcher.empty 2 [9] = .closed ∧
    (Producer.handleCloseProducer ⟨123, 7, ⟨43⟩, ⟨0⟩, false, false⟩).isClosed = true ∧
    (∀ cmd q2 e2,
      Producer.close ⟨123, 7, ⟨43⟩, ⟨0⟩, false, false⟩ Dispatcher.empty =
        .closedOk cmd q2 e2 →
      q2.isClosed = true ∧ q2.send e2 2 [9] = .closed) :=
  producer_closed_send_fails ⟨123, 7, ⟨43⟩, ⟨0⟩, true, true⟩
    ⟨123, 7, ⟨43⟩, ⟨0⟩, false, false⟩ Dispatcher.empty Dispatcher.empty 2 [9] rfl

/-- C7: Producer.Close is idempotent — on an already-closed producer it
returns nil immediately with no frame written and both the producer and
the dispatcher untouched; in particular after a first Close completed
through the response path, a second Close is such a no-op. -/
theorem producer_close_idempotent (p : Producer) (d : Dispatcher)
    (hp : p.isClosed = true) :
    p.close d = .alreadyClosed p d ∧
    (∀ (q : Producer) (e : Dispatcher) cmd q2 e2,
      q.close e = .closedOk cmd q2 e2 → q2.close e2 = .alreadyClosed q2 e2) := by
  constructor
  · unfold Producer.close
    rw [if_pos hp]
  · intro q e cmd q2 e2 h
    have h2 := (producer_close_closedOk q e cmd q2 e2 h).1
    unfold Producer.close
    rw [if_pos h2]

/-- C7 witness: a second Close on a closed producer is a no-op. -/
theorem producer_close_idempotent_witness :
    Producer.close ⟨123, 7, ⟨44⟩, ⟨0⟩, true, true⟩ Dispatcher.empty =
      .alreadyClosed ⟨123, 7, ⟨44⟩, ⟨0⟩, true, true⟩ Dispatcher.empty ∧
    (∀ (q : Producer) (e : Dispatcher) cmd q2 e2,
      q.close e = .closedOk cmd q2 e2 → q2.close e2 = .alreadyClosed q2 e2) :=
  producer_close_idempotent ⟨123, 7, ⟨44⟩, ⟨0⟩, true, true⟩ Dispatcher.empty rfl

theorem retryDelayAt_shift (dly maxd : Int) : ∀ k : Nat,
    retryDelayAt dly maxd (k + 1) =
      retryDelayAt (nextRetryDelay maxd dly) maxd k := by
  intro k
  induction k with
  | zero => rfl
  | succ k ih =>
      show nextRetryDelay maxd (retryDelayAt dly maxd (k + 1)) = _
      rw [ih]
      rfl

theorem retryDelayAt_range_succ (dly maxd : Int) (m : Nat) :
    (List.range (m + 1)).map (fun k => retryDelayAt dly maxd k) =
      dly :: (List.range m).map (fun k => retryDelayAt (nextRetryDelay maxd dly) maxd k) := by
  rw [List.range_succ_eq_map]
  simp only [List.map_cons, List.map_map]
  congr 1
  apply List.map_congr_left
  intro k _
  show retryDelayAt dly maxd (k + 1) = retryDelayAt (nextRetryDelay maxd dly) maxd k
  exact retryDelayAt_shift dly maxd k

/-- The reconnect loop driven by n failed attempts and then a success
sleeps exactly the retryDelayAt sequence and invokes the create sequence
(newConsumer) once per attempt, n + 1 times in total. -/
theorem reconnectLoop_sleeps (maxd : Int) : ∀ (n : Nat) (dly : Int),
    reconnectLoop maxd dly false (List.replicate n false ++ [true]) =
      ((List.range (n + 1)).map (fun k => retryDelayAt dly maxd k), n + 1, true) := by
  intro n
  induction n with
  | zero =>
      intro dly
      rw [retryDelayAt_range_succ]
      simp [reconnectLoop]
  | succ n ih =>
      intro dly
      rw [List.replicate_succ, List.cons_append]
      show (let rd2 := nextRetryDelay maxd dly;
        if false = true then ([dly], 1, true)
        else
          let r := reconnectLoop maxd rd2 false (List.replicate n false ++ [true])
          (dly :: r.1, r.2.1 + 1, r.2.2)) = _
      simp only [if_neg (by simp : ¬ false = true)]
      rw [ih (nextRetryDelay maxd dly)]
      rw [retryDelayAt_range_succ dly maxd (n + 1)]

theorem int64wrap_eq_self (x : Int) (h1 : -(2 ^ 63) ≤ x) (h2 : x < 2 ^ 63) :
    int64wrap x = x := by
  unfold int64wrap
  omega

/-- As long as the maximum delay is at most 2^62 ns (so that the int64
doubling cannot overflow), the retry delay stays positive and capped at
the maximum. -/
theorem retryDelayAt_bounds (dly maxd : Int) (h0 : 0 < dly) (hle : dly ≤ maxd)
    (hmax : maxd ≤ 2 ^ 62) :
    ∀ k : Nat, 0 < retryDelayAt dly maxd k ∧ retryDelayAt dly maxd k ≤ maxd := by
  intro k
  induction k with
  | zero => exact ⟨h0, hle⟩
  | succ k ih =>
      obtain ⟨hp, hl⟩ := ih
      show 0 < nextRetryDelay maxd (retryDelayAt dly maxd k) ∧
        nextRetryDelay maxd (retryDelayAt dly maxd k) ≤ maxd
      unfold nextRetryDelay
      by_cases h1 : retryDelayAt dly maxd k < maxd
      · rw [if_pos h1]
        rw [int64wrap_eq_self _ (by omega) (by omega)]
        by_cases h2 : retryDelayAt dly maxd k * 2 > maxd
        · rw [if_pos h2]
          exact ⟨by omega, by omega⟩
        · rw [if_neg h2]
          exact ⟨by omega, by omega⟩
      · rw [if_neg h1]
        exact ⟨hp, hl⟩

theorem retryDelayAt_doubles (dly maxd : Int) (h0 : 0 < dly) (hle : dly ≤ maxd)
    (hmax : maxd ≤ 2 ^ 62) (k : Nat)
    (h : retryDelayAt dly maxd k * 2 ≤ maxd) :
    retryDelayAt dly maxd (k + 1) = retryDelayAt dly maxd k * 2 := by
  obtain ⟨hp, hl⟩ := retryDelayAt_bounds dly maxd h0 hle hmax k
  show nextRetryDelay maxd (retryDelayAt dly maxd k) = _
  unfold nextRetryDelay
  rw [if_pos (by omega)]
  rw [int64wrap_eq_self _ (by omega) (by omega)]
  rw [if_neg (by omega)]

/-- C8: SetDefaults turns a zero config into the 1 s initial and 5 min
maximum reconnect delays (and 5 s consumer timeout, queue 128); for any
config with 0 < initial ≤ max ≤ 2^62 ns (the defaults comfortably so,
keeping the int64 doubling below overflow), the reconnect loop, before
each retry attempt, sleeps a delay that starts at the initial reconnect
delay, is doubled after each failed attempt, and never exceeds the
maximum reconnect delay; each attempt invokes the create sequence
(newConsumer) exactly once, so n failures before success give n + 1
invocations. -/
theorem managed_consumer_reconnect_backoff (init maxd : Int) (n : Nat)
    (h0 : 0 < init) (hle : init ≤ maxd) (hmax : maxd ≤ 2 ^ 62) :
    ConsumerConfig.setDefaults ⟨0, 0, 0, 0⟩ =
      ⟨5 * goSecond, goSecond, 5 * goMinute, 128⟩ ∧
    reconnectLoop maxd init false (List.replicate n false ++ [true]) =
      ((List.range (n + 1)).map (fun k => retryDelayAt init maxd k), n + 1, true) ∧
    retryDelayAt init maxd 0 = init ∧
    (∀ k, retryDelayAt init maxd k ≤ maxd) ∧
    (∀ k, retryDelayAt init maxd k * 2 ≤ maxd →
      retryDelayAt init maxd (k + 1) = retryDelayAt init maxd k * 2) :=
  ⟨by decide, reconnectLoop_sleeps maxd n init, rfl,
   fun k => (retryDelayAt_bounds init maxd h0 hle hmax k).2,
   fun k hk => retryDelayAt_doubles init maxd h0 hle hmax k hk⟩

/-- C8 witness: the default delays (1 s initial, 5 min cap) drive the
backoff; instantiated at two failures before success. -/
theorem managed_consumer_reconnect_backoff_witness :
    ConsumerConfig.setDefaults ⟨0, 0, 0, 0⟩ =
      ⟨5 * goSecond, goSecond, 5 * goMinute, 128⟩ ∧
    reconnectLoop (5 * goMinute) goSecond false (List.replicate 2 false ++ [true]) =
      ((List.range 3).map (fun k => retryDelayAt goSecond (5 * goMinute) k), 3, true) ∧
    retryDelayAt goSecond (5 * goMinute) 0 = goSecond ∧
    (∀ k, retryDelayAt goSecond (5 * goMinute) k ≤ 5 * goMinute) ∧
    (∀ k, retryDelayAt goSecond (5 * goMinute) k * 2 ≤ 5 * goMinute →
      retryDelayAt goSecond (5 * goMinute) (k + 1) =
        retryDelayAt goSecond (5 * goMinute) k * 2) :=
  managed_consumer_reconnect_backoff goSecond (5 * goMinute) 2
    (by decide) (by decide) (by decide)

/-- C10: ManagedConsumer.Close is not idempotent: a first Close with a
consumer present closes stopManageChan and returns; a second Close with a
consumer still present executes `close` on the already-closed channel and
panics instead of returning an error. -/
theorem managed_consumer_close_not_idempotent (mc : ManagedConsumer)
    (hc : mc.consumerPresent = true) (hs : mc.stopManageChanClosed = false) :
    mc.close = .ok { mc with stopManageChanClosed := true } ∧
    ManagedConsumer.close { mc with stopManageChanClosed := true } = .panicked := by
  constructor
  · simp [ManagedConsumer.close, hc, hs]
  · simp [ManagedConsumer.close, hc]

/-- C10 witness: the concrete two-Close sequence that panics. -/
theorem managed_consumer_close_not_idempotent_witness :
    ManagedConsumer.close ⟨true, false⟩ = .ok ⟨true, true⟩ ∧
    ManagedConsumer.close ⟨true, true⟩ = .panicked :=
  managed_consumer_close_not_idempotent ⟨true, false⟩ rfl rfl
